import Mathlib

/-!
Verification development for the niimasker repository
(niimasker/niimasker.py). The Python module is shallowly embedded below.

Modelling conventions:
  - Voxel intensities, confound values and time-series samples are
    rationals.
  - A 4-D functional image is its list of time frames (each frame the
    flattened 3-D volume) together with a 4x4 affine, both as lists.
  - A confound matrix (the ndarray regressors.values) is represented
    column-major: a matrix is its list of columns, so the numpy row slice
    regressors[n:, :] becomes dropping the first n entries of every
    column.
  - The extracted time series returned by the external nilearn maskers
    is represented row-major (frames x features), matching numpy, since
    the module applies np.mean(..., axis=1) to it.
  - External collaborators (nibabel loading, pandas read_csv, the
    nilearn fit_transform call and the fitted labels_ attribute of a
    labels masker) are opaque to the module and are supplied as an
    explicit environment of pure functions.
  - Python exceptions are modelled as Except / error strings; the batch
    orchestrator returns the files written so far together with the
    first raised error, since files written before an exception remain
    on disk.
-/

namespace NiiMasker

/-- Matrix of confound regressors, column-major (list of columns). -/
abbrev ConfMatrix := List (List ℚ)

/-- Embeds nibabel Nifti1Image: list of time frames (each the flattened
3-D volume at that time point) plus the spatial affine. -/
structure NiftiImage where
  frames : List (List ℚ)
  affine : List (List ℚ)
deriving DecidableEq

/-- Embeds the 3-D mask / atlas image: the flattened integer voxel
values. -/
structure MaskImage where
  data : List ℤ
deriving DecidableEq

/-- Embeds a pandas DataFrame, column-major: each column is a name
paired with its values. -/
structure DataFrame where
  cols : List (String × List ℚ)
deriving DecidableEq

/-- Column names of a data frame, in order. -/
def DataFrame.names (df : DataFrame) : List String := df.cols.map Prod.fst

/-- Embeds DataFrame.values (the bare numeric matrix, column-major). -/
def DataFrame.values (df : DataFrame) : ConfMatrix := df.cols.map Prod.snd

/-- Row count of a (rectangular) data frame, read off the first column;
theorems that need rectangularity hypothesise it. -/
def DataFrame.nRows (df : DataFrame) : ℕ := (df.cols.headD ("", [])).2.length

/-- Embeds pandas single-column lookup df[name]: the first column with
the given name ([] if absent; selection guards presence first). -/
def DataFrame.getCol (df : DataFrame) (name : String) : List ℚ :=
  ((df.cols.find? (fun c => c.1 == name)).map Prod.snd).getD []

/-- Source line 18-20 of _discard_initial_scans: arr = img.get_data();
arr = arr[:, :, :, n_scans:]; out_img = nib.Nifti1Image(arr, img.affine).
Numpy slicing clamps, so dropping past the end yields an empty time
axis, never an exception. Line 22-26: regressors[n_scans:, :] drops the
first n_scans entries of every column (column-major convention). -/
def discard_initial_scans (img : NiftiImage) (n_scans : ℕ)
    (regressors : Option ConfMatrix) : NiftiImage × Option ConfMatrix :=
  let out_img : NiftiImage := ⟨img.frames.drop n_scans, img.affine⟩
  (out_img, regressors.map (fun r => r.map (fun col => col.drop n_scans)))

/-- Helper for the Python substring test: does the first list start the
second one. -/
def startsWithL : List Char → List Char → Bool
  | [], _ => true
  | _ :: _, [] => false
  | a :: as, b :: bs => a == b && startsWithL as bs

/-- Helper for the Python substring test: does the first list occur
contiguously inside the second one. -/
def hasSubL (needle : List Char) : List Char → Bool
  | [] => needle.isEmpty
  | c :: rest => startsWithL needle (c :: rest) || hasSubL needle rest

/-- Embeds the Python substring operator: needle in hay. -/
def strContains (needle hay : String) : Bool := hasSubL needle.data hay.data

/-- Source line 35: the column-selection predicate
('rot' in i) | ('trans' in i). -/
def hasRealignName (s : String) : Bool :=
  strContains "rot" s || strContains "trans" s

/-- Embeds np.gradient(y, h) on one column of length at least 2:
one-sided differences at the two ends, central differences inside.
np.gradient raises on shorter input; that shape check is performed by
the caller (compute_realign_derivs), matching where numpy raises. -/
def npGradient (h : ℚ) (y : List ℚ) : List ℚ :=
  (List.range y.length).map (fun i =>
    if i = 0 then (y.getD 1 0 - y.getD 0 0) / h
    else if i = y.length - 1 then (y.getD i 0 - y.getD (i - 1) 0) / h
    else (y.getD (i + 1) 0 - y.getD (i - 1) 0) / (2 * h))

/-- Source lines 33-41, _compute_realign_derivs: select the columns
whose name contains rot or trans, take the gradient of that submatrix
along axis 0 with sample distance t_r, suffix the selected names with
_d, and concatenate the derivative columns to the right of the original
frame. The guard models the numpy ValueError when the axis-0 length of
the selected submatrix (the frame row count) is below 2. -/
def compute_realign_derivs (regressors : DataFrame) (t_r : ℚ) :
    Except String DataFrame :=
  let cols := regressors.names.filter hasRealignName
  let realign := cols.map (fun n => regressors.getCol n)
  if regressors.nRows < 2 then
    .error "Shape of array too small to calculate a numerical gradient"
  else
    let derivs := realign.map (npGradient t_r)
    .ok ⟨regressors.cols ++ List.zipWith (fun n d => (n ++ "_d", d)) cols derivs⟩

/-- Embeds pandas column-list selection all_regressors[regressor_names]:
the named columns in request order, or a KeyError if any is absent. -/
def selectCols (df : DataFrame) (names : List String) : Except String DataFrame :=
  if names.all (fun n => (df.cols.find? (fun c => c.1 == n)).isSome) then
    .ok ⟨names.map (fun n => (n, df.getCol n))⟩
  else
    .error "KeyError: requested columns not found"

/-- Source lines 44-54, _build_regressors: read the confound table
(supplied here already parsed, standing for pd.read_csv), select the
requested columns, and only then, if derivatives were requested, demand
t_r and compute them. The source returns regressors.values; callers
take .values, the names are kept here so that column-labelling facts
can be stated. -/
def build_regressors (table : DataFrame) (regressor_names : List String)
    (realign_derivatives : Bool) (t_r : Option ℚ) : Except String DataFrame := do
  let regressors ← selectCols table regressor_names
  if realign_derivatives then
    match t_r with
    | some τ => compute_realign_derivs regressors τ
    | none => .error "t_r not provided for realignment derivatives."
  else
    pure regressors

/-- Tagged variant for the two nilearn masker kinds the module can
construct (construction kwargs are pass-through to nilearn and play no
role in the modelled logic). -/
inductive Masker where
  | niftiMasker (mask_img : MaskImage)
  | niftiLabelsMasker (mask_img : MaskImage)
deriving DecidableEq

/-- Embeds len(np.unique(mask_img.get_data())): the number of distinct
voxel values in the mask, zero included when present. -/
def nUnique (img : MaskImage) : ℕ := img.data.toFinset.card

/-- Number of distinct non-zero voxel values in the mask (the notion the
specification counts with). -/
def nonzeroCount (img : MaskImage) : ℕ := (img.data.toFinset.erase 0).card

/-- Source lines 59-72, _set_masker: n_rois = np.unique(data); more than
two distinct values selects NiftiLabelsMasker, exactly two selects
NiftiMasker, otherwise a ValueError. -/
def set_masker (mask_img : MaskImage) : Except String Masker :=
  if nUnique mask_img > 2 then .ok (.niftiLabelsMasker mask_img)
  else if nUnique mask_img = 2 then .ok (.niftiMasker mask_img)
  else .error "No ROI detected; check ROI file"

/-- Environment of external collaborators: nibabel image loading,
nilearn image loading of the mask, pandas read_csv, the fitted
masker.fit_transform call (row-major frames x features output) and the
fitted labels_ attribute of a labels masker. All are opaque pure
functions to the module. -/
structure Env where
  loadImg : String → NiftiImage
  loadMask : String → MaskImage
  readCsv : String → DataFrame
  fitTransform : Masker → NiftiImage → Option ConfMatrix → List (List ℚ)
  atlasLabels : List String

/-- Output table of the extraction step (the pd.DataFrame built at
source line 89): stringified column labels plus the row-major data. -/
structure OutTable where
  labels : List String
  rows : List (List ℚ)
deriving DecidableEq

/-- Embeds timeseries.shape of a row-major numpy matrix, second
component (feature count). -/
def numCols (m : List (List ℚ)) : ℕ := (m.headD []).length

/-- Embeds np.mean(row) over one row (axis=1 collapse of a row-major
matrix applies this to every row). -/
def listMean (row : List ℚ) : ℚ := row.sum / row.length

/-- Source lines 75-89, _mask: run fit_transform, then label columns:
binary masker with as_voxels gives voxelN labels and the raw matrix;
binary masker otherwise collapses features by np.mean(..., axis=1) into
a single column labelled roi unless roi_labels overrides; a labels
masker keeps the matrix and uses masker.labels_ unless roi_labels
overrides. Label stringification (str(i)) is the identity here since
labels are modelled as strings. -/
def mask (env : Env) (masker : Masker) (img : NiftiImage)
    (confounds : Option ConfMatrix) (roi_labels : Option (List String))
    (as_voxels : Bool) : OutTable :=
  let timeseries := env.fitTransform masker img confounds
  match masker with
  | .niftiMasker _ =>
    if as_voxels then
      ⟨(List.range (numCols timeseries)).map (fun i => "voxel" ++ toString i),
       timeseries⟩
    else
      ⟨roi_labels.getD ["roi"], timeseries.map (fun row => [listMean row])⟩
  | .niftiLabelsMasker _ =>
    ⟨roi_labels.getD env.atlasLabels, timeseries⟩

/-- Embeds os.path.basename: everything after the last path separator. -/
def osPathBasename (p : String) : String :=
  String.mk (p.data.foldl (fun acc c => if c = '/' then [] else acc ++ [c]) [])

/-- Embeds basename.split(".")[0]: the basename up to the first dot. -/
def stripExt (basename : String) : String :=
  String.mk (basename.data.takeWhile (fun c => c ≠ '.'))

/-- Left-pads a natural with zeros to 8 digits (the fractional part of
the %.8f rendering). -/
def pad8 (k : ℕ) : String :=
  let s := toString k
  String.mk (List.replicate (8 - s.length) '0') ++ s

/-- Embeds the C format %.8f used by to_csv float_format: sign, integer
part, dot, exactly eight fractional digits (rounded). -/
def fmt8 (q : ℚ) : String :=
  let n : ℤ := (q * 100000000).floor + (if (2 : ℚ) * ((q * 100000000) - (q * 100000000).floor) ≥ 1 then 1 else 0)
  let sign := if n < 0 then "-" else ""
  let m := n.natAbs
  sign ++ toString (m / 100000000) ++ "." ++ pad8 (m % 100000000)

/-- Embeds data.to_csv(path, sep=tab, index=False, float_format=%.8f):
a header line of the column labels joined by tabs, then one line per
row of %.8f-rendered values joined by tabs, each line newline
terminated, and no index column. -/
def toCsv (t : OutTable) : String :=
  String.intercalate "\t" t.labels ++ "\n" ++
    String.join (t.rows.map (fun r => String.intercalate "\t" (r.map fmt8) ++ "\n"))

/-- A file written by the driver: its path and full contents. -/
structure SavedFile where
  path : String
  content : String
deriving DecidableEq

/-- Source lines 101-105 of _mask_and_save: build the confound matrix
from the regressor file when one is given (taking .values), else None. -/
def buildConfounds (env : Env) (regressor_file : Option String)
    (regressor_names : List String) (realign_derivs : Bool)
    (t_r : Option ℚ) : Except String (Option ConfMatrix) :=
  match regressor_file with
  | some f =>
    (build_regressors (env.readCsv f) regressor_names realign_derivs t_r).map
      (fun df => some df.values)
  | none => .ok none

/-- Source lines 107-110 of _mask_and_save: apply the trimmer only when
a discard count is present and positive. -/
def applyDiscard (discard_scans : Option ℕ) (img : NiftiImage)
    (conf : Option ConfMatrix) : NiftiImage × Option ConfMatrix :=
  match discard_scans with
  | some n => if n > 0 then discard_initial_scans img n conf else (img, conf)
  | none => (img, conf)

/-- Source lines 92-116, _mask_and_save: load the image, build
confounds, optionally trim, extract, and write
basename-up-to-first-dot + _timeseries.tsv into the output directory
(os.path.join modelled for a separator-free directory prefix). -/
def mask_and_save (env : Env) (masker : Masker) (img_name : String)
    (output_dir : String) (regressor_file : Option String)
    (regressor_names : List String) (realign_derivs : Bool) (t_r : Option ℚ)
    (as_voxels : Bool) (labels : Option (List String))
    (discard_scans : Option ℕ) : Except String SavedFile := do
  let basename := osPathBasename img_name
  let img := env.loadImg img_name
  let confounds ← buildConfounds env regressor_file regressor_names realign_derivs t_r
  let trimmed := applyDiscard discard_scans img confounds
  let data := mask env masker trimmed.1 trimmed.2 labels as_voxels
  let out_fname := stripExt basename ++ "_timeseries.tsv"
  pure ⟨output_dir ++ "/" ++ out_fname, toCsv data⟩

/-- Per-batch constants of make_timeseries, bundled: everything except
the image path and its paired regressor file is held constant across
iterations (and across workers). -/
structure RunCfg where
  env : Env
  masker : Masker
  output_dir : String
  regressor_names : List String
  realign_derivs : Bool
  as_voxels : Bool
  labels : Option (List String)
  discard_scans : Option ℕ

/-- Kwargs forwarded to the maskers; the module reads the t_r entry by
key, so only its presence and value are modelled (none = key absent,
which raises KeyError at masker_kwargs[t_r]). -/
structure MaskerKwargs where
  t_r : Option ℚ
deriving DecidableEq

/-- One _mask_and_save invocation of the batch, at a (image, regressor
file) pair, with the t_r value read from the kwargs. -/
def callOne (cfg : RunCfg) (τ : ℚ) (p : String × Option String) :
    Except String SavedFile :=
  mask_and_save cfg.env cfg.masker p.1 cfg.output_dir p.2 cfg.regressor_names
    cfg.realign_derivs (some τ) cfg.as_voxels cfg.labels cfg.discard_scans

/-- Source lines 173-177, the sequential branch of make_timeseries:
for i, img in enumerate(input_files) call _mask_and_save with
regressor_files[i]. Per Python argument evaluation order, the list
index (IndexError) is evaluated before masker_kwargs[t_r] (KeyError);
an exception stops the loop, keeping the files already written. -/
def seqLoop (cfg : RunCfg) (regressor_files : List (Option String))
    (kwargs : MaskerKwargs) : List String → ℕ → List SavedFile × Option String
  | [], _ => ([], none)
  | img :: rest, i =>
    match regressor_files[i]? with
    | none => ([], some "IndexError: list index out of range")
    | some rf =>
      match kwargs.t_r with
      | none => ([], some "KeyError: t_r")
      | some τ =>
        match callOne cfg τ (img, rf) with
        | .error e => ([], some e)
        | .ok sf =>
          let r := seqLoop cfg regressor_files kwargs rest (i + 1)
          (sf :: r.1, r.2)

/-- First exception surfaced by pool.starmap over independent tasks. -/
def firstError (rs : List (Except String SavedFile)) : Option String :=
  rs.findSome? (fun r => match r with | .error e => some e | .ok _ => none)

/-- Outcome of one make_timeseries call: the files written to the
output directory and the exception the call raised, if any. -/
structure BatchOutcome where
  files : List SavedFile
  raised : Option String
deriving DecidableEq

/-- Source lines 119-193, make_timeseries: load the mask, construct the
masker once, broadcast an absent regressor-file list to per-image None,
then either run the sequential loop (n_jobs == 1) or build the zipped
argument list (evaluating masker_kwargs[t_r] eagerly, and truncating at
the shorter of input_files and regressor_files as zip does) and run
every task in the pool; every task runs independently, successful tasks
leave their files on disk, and the first task error surfaces. -/
def make_timeseries (env : Env) (input_files : List String) (mask_img : String)
    (output_dir : String) (labels : Option (List String))
    (regressor_files : Option (List (Option String)))
    (regressor_names : List String) (realign_derivs : Bool) (as_voxels : Bool)
    (discard_scans : Option ℕ) (n_jobs : ℕ) (kwargs : MaskerKwargs) :
    BatchOutcome :=
  match set_masker (env.loadMask mask_img) with
  | .error e => ⟨[], some e⟩
  | .ok masker =>
    let cfg : RunCfg := ⟨env, masker, output_dir, regressor_names,
      realign_derivs, as_voxels, labels, discard_scans⟩
    let regFiles := match regressor_files with
      | none => input_files.map (fun _ => none)
      | some fs => fs
    if n_jobs = 1 then
      let r := seqLoop cfg regFiles kwargs input_files 0
      ⟨r.1, r.2⟩
    else
      match kwargs.t_r with
      | none => ⟨[], some "KeyError: t_r"⟩
      | some τ =>
        let results := (input_files.zip regFiles).map (callOne cfg τ)
        ⟨results.filterMap Except.toOption, firstError results⟩

/-! Theorems -/

attribute [local semireducible] Rat.mul Rat.inv Rat.add Rat.sub Rat.ofScientific

/-- When the mask contains a background voxel, the distinct-value count
the source computes is one more than the distinct non-zero count. -/
lemma nUnique_eq_succ (img : MaskImage) (h0 : (0 : ℤ) ∈ img.data) :
    nUnique img = nonzeroCount img + 1 := by
  have hmem : (0 : ℤ) ∈ img.data.toFinset := List.mem_toFinset.mpr h0
  unfold nUnique nonzeroCount
  exact (Finset.card_erase_add_one hmem).symm

/-- C1 (amended): for every mask image containing at least one
background (zero) voxel, the selector picks the binary-region masker
when exactly one distinct non-zero value is present, the multi-label
atlas masker when two or more are present, and fails with the
no-region error when none is. -/
theorem claim_C1 (img : MaskImage) (h0 : (0 : ℤ) ∈ img.data) :
    set_masker img =
      if 2 ≤ nonzeroCount img then .ok (.niftiLabelsMasker img)
      else if nonzeroCount img = 1 then .ok (.niftiMasker img)
      else .error "No ROI detected; check ROI file" := by
  have h := nUnique_eq_succ img h0
  unfold set_masker
  rw [h]
  match hk : nonzeroCount img with
  | 0 => norm_num
  | 1 => norm_num
  | (k + 2) =>
    rw [if_pos (by omega : k + 2 + 1 > 2), if_pos (by omega : 2 ≤ k + 2)]

/-- C1 counterexample: a mask whose voxels all carry value 1 has
exactly one distinct non-zero voxel value, yet the selector fails with
the no-region error instead of constructing a binary-region masker
(np.unique counts the value 1 as the single value found, since no zero
is present). -/
theorem claim_C1_counterexample :
    nonzeroCount ⟨[1, 1]⟩ = 1 ∧
      set_masker ⟨[1, 1]⟩ = .error "No ROI detected; check ROI file" :=
  ⟨by decide, rfl⟩

/-- C1 witness at a concrete mask with a background voxel and two
regions. -/
theorem claim_C1_witness :
    set_masker ⟨[0, 1, 2]⟩ =
      if 2 ≤ nonzeroCount ⟨[0, 1, 2]⟩ then .ok (.niftiLabelsMasker ⟨[0, 1, 2]⟩)
      else if nonzeroCount ⟨[0, 1, 2]⟩ = 1 then .ok (.niftiMasker ⟨[0, 1, 2]⟩)
      else .error "No ROI detected; check ROI file" :=
  claim_C1 ⟨[0, 1, 2]⟩ (by decide)

/-- Concrete environment for evaluating the batch orchestrator. -/
def envC2 : Env where
  loadImg := fun _ => ⟨[[1], [2]], [[1]]⟩
  loadMask := fun _ => ⟨[0, 1]⟩
  readCsv := fun _ => ⟨[]⟩
  fitTransform := fun _ img _ => img.frames
  atlasLabels := []

/-- C2 (code bug evaluation): with derivative augmentation off and no
t_r entry in the masker kwargs, the batch orchestrator raises KeyError
at masker_kwargs[t_r] before writing any file, in the sequential mode
and in the parallel mode alike, instead of running to completion as
the specification requires. -/
theorem claim_C2 :
    make_timeseries envC2 ["a.nii"] "mask.nii" "out" none none [] false false
        none 1 ⟨none⟩ = ⟨[], some "KeyError: t_r"⟩ ∧
      make_timeseries envC2 ["a.nii"] "mask.nii" "out" none none [] false false
        none 2 ⟨none⟩ = ⟨[], some "KeyError: t_r"⟩ :=
  ⟨rfl, rfl⟩

/-- C3 (amended): trimming more frames than the volume holds is not an
error: the numpy slice clamps, so the trimmer returns normally with an
empty time axis, the affine untouched, and every confound column
likewise emptied by the clamped row slice. -/
theorem claim_C3 (img : NiftiImage) (n : ℕ) (conf : Option ConfMatrix)
    (h : img.frames.length < n) :
    (discard_initial_scans img n conf).1 = ⟨[], img.affine⟩ ∧
      (discard_initial_scans img n conf).2 =
        conf.map (fun r => r.map (fun col => col.drop n)) := by
  refine ⟨?_, rfl⟩
  unfold discard_initial_scans
  simp only
  rw [List.drop_eq_nil_of_le (Nat.le_of_lt h)]

/-- C3 counterexample: a two-frame volume trimmed by three returns
normally (an empty volume with the affine preserved) rather than
failing with a dimension error, so the discard count is in fact
silently clamped. -/
theorem claim_C3_counterexample :
    discard_initial_scans ⟨[[1], [2]], [[1]]⟩ 3 none =
      (⟨[], [[1]]⟩, none) := rfl

/-- C3 witness at a concrete out-of-range count. -/
theorem claim_C3_witness :
    (discard_initial_scans ⟨[[1], [2]], [[1]]⟩ 4 none).1 =
        ⟨[], ([[1]] : List (List ℚ))⟩ ∧
      (discard_initial_scans ⟨[[1], [2]], [[1]]⟩ 4 none).2 =
        (none : Option ConfMatrix).map (fun r => r.map (fun col => col.drop 4)) :=
  claim_C3 ⟨[[1], [2]], [[1]]⟩ 4 none (by decide)

/-- C4: for a discard count within range, trimming removes exactly the
first N frames (leaving F - N), preserves the affine, drops exactly the
first N rows of the confound matrix (every column loses its first N
entries, leaving F - N each), and a zero or absent count is a no-op. -/
theorem claim_C4 (img : NiftiImage) (n : ℕ) (conf : ConfMatrix)
    (h : n ≤ img.frames.length)
    (hrect : conf.all (fun col => col.length == img.frames.length) = true) :
    (discard_initial_scans img n (some conf)).1.frames.length
        = img.frames.length - n ∧
      (discard_initial_scans img n (some conf)).1.affine = img.affine ∧
      (discard_initial_scans img n (some conf)).2
        = some (conf.map (fun col => col.drop n)) ∧
      ((discard_initial_scans img n (some conf)).2.getD []).all
        (fun col => col.length == img.frames.length - n) = true ∧
      discard_initial_scans img 0 (some conf) = (img, some conf) ∧
      applyDiscard none img (some conf) = (img, some conf) ∧
      applyDiscard (some 0) img (some conf) = (img, some conf) := by
  refine ⟨?_, rfl, rfl, ?_, ?_, rfl, rfl⟩
  · simp [discard_initial_scans]
  · simp only [discard_initial_scans, Option.map_some, Option.getD_some,
      List.all_eq_true]
    intro col hcol
    obtain ⟨c, hc, rfl⟩ := List.mem_map.mp hcol
    have := List.all_eq_true.mp hrect c hc
    simp only [beq_iff_eq] at this ⊢
    simp [this]
  · simp [discard_initial_scans]

/-- C4 witness at a concrete three-frame volume with two confound
columns and a discard count of one. -/
theorem claim_C4_witness :
    (discard_initial_scans ⟨[[1], [2], [3]], [[1]]⟩ 1
          (some [[1, 2, 3], [4, 5, 6]])).1.frames.length
        = (⟨[[1], [2], [3]], [[1]]⟩ : NiftiImage).frames.length - 1 ∧
      (discard_initial_scans ⟨[[1], [2], [3]], [[1]]⟩ 1
          (some [[1, 2, 3], [4, 5, 6]])).1.affine
        = (⟨[[1], [2], [3]], [[1]]⟩ : NiftiImage).affine ∧
      (discard_initial_scans ⟨[[1], [2], [3]], [[1]]⟩ 1
          (some [[1, 2, 3], [4, 5, 6]])).2
        = some ([[1, 2, 3], [4, 5, 6]].map (fun col => col.drop 1)) ∧
      ((discard_initial_scans ⟨[[1], [2], [3]], [[1]]⟩ 1
          (some [[1, 2, 3], [4, 5, 6]])).2.getD []).all
        (fun col => col.length
          == (⟨[[1], [2], [3]], [[1]]⟩ : NiftiImage).frames.length - 1) = true ∧
      discard_initial_scans ⟨[[1], [2], [3]], [[1]]⟩ 0
          (some [[1, 2, 3], [4, 5, 6]])
        = (⟨[[1], [2], [3]], [[1]]⟩, some [[1, 2, 3], [4, 5, 6]]) ∧
      applyDiscard none ⟨[[1], [2], [3]], [[1]]⟩ (some [[1, 2, 3], [4, 5, 6]])
        = (⟨[[1], [2], [3]], [[1]]⟩, some [[1, 2, 3], [4, 5, 6]]) ∧
      applyDiscard (some 0) ⟨[[1], [2], [3]], [[1]]⟩
          (some [[1, 2, 3], [4, 5, 6]])
        = (⟨[[1], [2], [3]], [[1]]⟩, some [[1, 2, 3], [4, 5, 6]]) :=
  claim_C4 ⟨[[1], [2], [3]], [[1]]⟩ 1 [[1, 2, 3], [4, 5, 6]] (by decide)
    (by decide)

/-- C8: whenever derivative augmentation is requested without a sample
spacing, the confound builder fails before any derivative is computed:
with the requested columns present it fails with exactly the t_r
configuration error, and otherwise the earlier column lookup error is
what surfaces; in no case does it return a table. -/
theorem claim_C8 (table : DataFrame) (names : List String) :
    build_regressors table names true none =
      .error
        (if names.all (fun n => (table.cols.find? (fun c => c.1 == n)).isSome)
          then "t_r not provided for realignment derivatives."
          else "KeyError: requested columns not found") := by
  simp only [build_regressors, selectCols]
  split_ifs <;> rfl

/-- Zipping a list with its own image under a map is a single map. -/
lemma zipWith_map_self {α β γ : Type} (f : α → β → γ) (g : α → β)
    (l : List α) : List.zipWith f l (l.map g) = l.map (fun a => f a (g a)) := by
  induction l with
  | nil => rfl
  | cons a t ih => simp [List.zipWith, ih]

/-- Filtering the column names of a frame is filtering its columns on
the name component. -/
lemma names_filter_eq (df : DataFrame) (p : String → Bool) :
    df.names.filter p = (df.cols.filter (fun c => p c.1)).map Prod.fst := by
  rw [DataFrame.names, List.filter_map]; rfl

/-- With distinct column names, searching a column list for the name of
one of its members finds exactly that member. -/
lemma find_eq_of_nodup (cs : List (String × List ℚ))
    (hnd : (cs.map Prod.fst).Nodup) (c : String × List ℚ) (hc : c ∈ cs) :
    cs.find? (fun x => x.1 == c.1) = some c := by
  induction cs with
  | nil => cases hc
  | cons a t ih =>
    rcases List.mem_cons.mp hc with rfl | hct
    · exact List.find?_cons_of_pos _ (by simp)
    · have hne : a.1 ≠ c.1 := by
        have h1 : c.1 ∈ t.map Prod.fst := List.mem_map_of_mem Prod.fst hct
        have h2 : a.1 ∉ t.map Prod.fst := (List.nodup_cons.mp hnd).1
        exact fun h => h2 (h ▸ h1)
      rw [List.find?_cons_of_neg _ (by simpa using hne)]
      exact ih (List.nodup_cons.mp hnd).2 hct

/-- With distinct column names, name-based lookup of a member column
returns its stored values. -/
lemma getCol_eq (df : DataFrame) (hnd : df.names.Nodup)
    (c : String × List ℚ) (hc : c ∈ df.cols) : df.getCol c.1 = c.2 := by
  unfold DataFrame.getCol
  rw [find_eq_of_nodup df.cols hnd c hc]
  rfl

/-- C5: requesting derivatives at spacing t_r appends, to the right of
the original selected columns and in their relative order, exactly one
new column per selected column whose name contains rot or trans, named
with the _d suffix and holding the numpy gradient (one-sided at the two
ends, central differences inside, all at spacing t_r) of the source
column; columns matching neither substring contribute no derivative. -/
theorem claim_C5 (df : DataFrame) (τ : ℚ) (h2 : 2 ≤ df.nRows)
    (hnd : df.names.Nodup) :
    compute_realign_derivs df τ =
      .ok ⟨df.cols ++ (df.cols.filter (fun c => hasRealignName c.1)).map
        (fun c => (c.1 ++ "_d", npGradient τ c.2))⟩ := by
  have hguard : ¬ df.nRows < 2 := by omega
  simp only [compute_realign_derivs, if_neg hguard]
  rw [List.map_map, zipWith_map_self, names_filter_eq, List.map_map]
  congr 2
  congr 1
  apply List.map_congr_left
  intro c hc
  have h := getCol_eq df hnd c (List.mem_of_mem_filter hc)
  simp [Function.comp, h]

/-- Concrete confound frame for the C5 witness. -/
def dfW : DataFrame := ⟨[("rot_x", [0, 1, 4]), ("other", [5, 5, 5])]⟩

/-- C5 witness at a concrete frame with one realignment column and one
unrelated column. -/
theorem claim_C5_witness :
    compute_realign_derivs dfW 1 =
      .ok ⟨dfW.cols ++ (dfW.cols.filter (fun c => hasRealignName c.1)).map
        (fun c => (c.1 ++ "_d", npGradient 1 c.2))⟩ :=
  claim_C5 dfW 1 (by decide) (by decide)

/-- C6: for a binary-region masker, voxel output returns the extracted
matrix unmodified with columns voxel0 .. voxel(features-1) (one label
per feature), while non-voxel output collapses each frame to the mean
across the voxel columns, one column per frame, labelled roi unless
the caller supplied an explicit label list, which is then used. -/
theorem claim_C6 (env : Env) (m : MaskImage) (img : NiftiImage)
    (conf : Option ConfMatrix) (rl : Option (List String)) (L : List String) :
    (mask env (.niftiMasker m) img conf rl true).rows
        = env.fitTransform (.niftiMasker m) img conf ∧
      (mask env (.niftiMasker m) img conf rl true).labels
        = (List.range (numCols (env.fitTransform (.niftiMasker m) img conf))).map
            (fun i => "voxel" ++ toString i) ∧
      (mask env (.niftiMasker m) img conf rl true).labels.length
        = numCols (env.fitTransform (.niftiMasker m) img conf) ∧
      mask env (.niftiMasker m) img conf none false
        = ⟨["roi"], (env.fitTransform (.niftiMasker m) img conf).map
            (fun row => [listMean row])⟩ ∧
      mask env (.niftiMasker m) img conf (some L) false
        = ⟨L, (env.fitTransform (.niftiMasker m) img conf).map
            (fun row => [listMean row])⟩ ∧
      (mask env (.niftiMasker m) img conf rl false).rows.all
        (fun r => r.length == 1) = true := by
  refine ⟨rfl, rfl, ?_, rfl, rfl, ?_⟩
  · simp [mask]
  · show ((env.fitTransform (.niftiMasker m) img conf).map
      (fun row => [listMean row])).all (fun r => r.length == 1) = true
    simp [List.all_eq_true]

/-- C7: whenever the per-image driver succeeds, the file it writes sits
at output_dir/basename-up-to-first-dot_timeseries.tsv and its contents
are a tab-joined header line of the column labels of the extracted
table followed by one newline-terminated line per frame of the %.8f
rendering of each value joined by tabs, with no index column. -/
theorem claim_C7 (env : Env) (masker : Masker) (img_name output_dir : String)
    (rf : Option String) (rn : List String) (rd : Bool) (t_r : Option ℚ)
    (av : Bool) (labels : Option (List String)) (ds : Option ℕ)
    (conf : Option ConfMatrix) (sf : SavedFile)
    (hconf : buildConfounds env rf rn rd t_r = .ok conf)
    (hok : mask_and_save env masker img_name output_dir rf rn rd t_r av labels
      ds = .ok sf) :
    sf.path = output_dir ++ "/" ++ stripExt (osPathBasename img_name)
        ++ "_timeseries.tsv" ∧
      sf.content =
        String.intercalate "\t"
            (mask env masker (applyDiscard ds (env.loadImg img_name) conf).1
              (applyDiscard ds (env.loadImg img_name) conf).2 labels av).labels
          ++ "\n" ++
          String.join
            ((mask env masker (applyDiscard ds (env.loadImg img_name) conf).1
                (applyDiscard ds (env.loadImg img_name) conf).2 labels
                av).rows.map
              (fun r => String.intercalate "\t" (r.map fmt8) ++ "\n")) := by
  unfold mask_and_save at hok
  rw [hconf] at hok
  change Except.ok _ = Except.ok sf at hok
  injection hok with h
  subst h
  constructor
  · simp [String.append_assoc]
  · rfl

/-- Concrete environment for the C7 witness: a two-frame single-voxel
image behind a binary mask. -/
def envW : Env where
  loadImg := fun _ => ⟨[[1], [3]], [[1]]⟩
  loadMask := fun _ => ⟨[0, 1]⟩
  readCsv := fun _ => ⟨[]⟩
  fitTransform := fun _ img _ => img.frames
  atlasLabels := []

/-- The file the driver writes in the C7 witness run. -/
def sfW : SavedFile := ⟨"out/img_timeseries.tsv", "roi\n1.00000000\n3.00000000\n"⟩

/-- C7 witness at a concrete driver run with no confounds and no
discard count. -/
theorem claim_C7_witness :
    sfW.path = "out" ++ "/" ++ stripExt (osPathBasename "img.nii")
        ++ "_timeseries.tsv" ∧
      sfW.content =
        String.intercalate "\t"
            (mask envW (.niftiMasker ⟨[0, 1]⟩)
              (applyDiscard none (envW.loadImg "img.nii") none).1
              (applyDiscard none (envW.loadImg "img.nii") none).2 none
              false).labels
          ++ "\n" ++
          String.join
            ((mask envW (.niftiMasker ⟨[0, 1]⟩)
                (applyDiscard none (envW.loadImg "img.nii") none).1
                (applyDiscard none (envW.loadImg "img.nii") none).2 none
                false).rows.map
              (fun r => String.intercalate "\t" (r.map fmt8) ++ "\n")) :=
  claim_C7 envW (.niftiMasker ⟨[0, 1]⟩) "img.nii" "out" none [] false none
    false none none none sfW rfl rfl

/-- Auxiliary: recovering the successes of an all-successful task list
is the identity. -/
lemma filterMap_toOption_map_ok (l : List SavedFile) :
    (l.map (Except.ok (ε := String))).filterMap Except.toOption = l := by
  induction l with
  | nil => rfl
  | cons a t ih => simp [Except.toOption, ih]

/-- Auxiliary: an all-successful task list surfaces no error. -/
lemma firstError_map_ok (l : List SavedFile) :
    firstError (l.map Except.ok) = none := by
  induction l with
  | nil => rfl
  | cons a t ih => simpa [firstError, List.findSome?_cons] using ih

/-- Auxiliary: recovering successes preserves length when every task
succeeded. -/
lemma length_filterMap_toOption (rs : List (Except String SavedFile))
    (h : ∀ r ∈ rs, r.isOk = true) :
    (rs.filterMap Except.toOption).length = rs.length := by
  induction rs with
  | nil => rfl
  | cons r t ih =>
    cases r with
    | ok sf =>
      simp only [List.filterMap_cons, Except.toOption, List.length_cons]
      rw [ih (fun x hx => h x (List.mem_cons_of_mem _ hx))]
    | error e =>
      have := h _ (List.mem_cons_self _ _)
      simp [Except.isOk, Except.toBool] at this

/-- Auxiliary: a task list of successes surfaces no error. -/
lemma firstError_eq_none (rs : List (Except String SavedFile))
    (h : ∀ r ∈ rs, r.isOk = true) : firstError rs = none := by
  induction rs with
  | nil => rfl
  | cons r t ih =>
    cases r with
    | ok sf =>
      simpa [firstError, List.findSome?_cons] using
        ih (fun x hx => h x (List.mem_cons_of_mem _ hx))
    | error e =>
      have := h _ (List.mem_cons_self _ _)
      simp [Except.isOk, Except.toBool] at this

/-- Auxiliary: a sequential run from index i that raises nothing wrote
exactly the ok results of the corresponding zipped task list. -/
lemma seqLoop_map_ok (cfg : RunCfg) (regFiles : List (Option String))
    (kwargs : MaskerKwargs) (τ : ℚ) (htr : kwargs.t_r = some τ) :
    ∀ (inputs : List String) (i : ℕ),
      i + inputs.length ≤ regFiles.length →
      (seqLoop cfg regFiles kwargs inputs i).2 = none →
      (inputs.zip (regFiles.drop i)).map (callOne cfg τ)
        = (seqLoop cfg regFiles kwargs inputs i).1.map Except.ok := by
  intro inputs
  induction inputs with
  | nil => intro i _ _; simp [seqLoop]
  | cons a rest ih =>
    intro i hlen hraise
    have hi : i < regFiles.length := by
      simp only [List.length_cons] at hlen; omega
    rw [List.drop_eq_getElem_cons hi]
    simp only [seqLoop, List.getElem?_eq_getElem hi, htr] at hraise ⊢
    cases hcall : callOne cfg τ (a, regFiles[i]) with
    | error e => rw [hcall] at hraise; simp at hraise
    | ok sf =>
      rw [hcall] at hraise
      simp only at hraise ⊢
      have hrec := ih (i + 1)
        (by simp only [List.length_cons] at hlen; omega) hraise
      simp only [List.zip_cons_cons, List.map_cons]
      rw [hrec, hcall]

/-- Auxiliary: with the regressor list exhausted before the input list
and every paired call succeeding, the sequential loop writes exactly
the paired prefix and then raises the list index error. -/
lemma seqLoop_index_error (cfg : RunCfg) (regFiles : List (Option String))
    (kwargs : MaskerKwargs) (τ : ℚ) (htr : kwargs.t_r = some τ) :
    ∀ (inputs : List String) (i : ℕ),
      regFiles.length < i + inputs.length →
      i ≤ regFiles.length →
      (∀ p ∈ inputs.zip (regFiles.drop i), (callOne cfg τ p).isOk = true) →
      seqLoop cfg regFiles kwargs inputs i
        = (((inputs.zip (regFiles.drop i)).map (callOne cfg τ)).filterMap
            Except.toOption,
           some "IndexError: list index out of range") := by
  intro inputs
  induction inputs with
  | nil => intro i h1 h2 _; simp only [List.length_nil] at h1; omega
  | cons a rest ih =>
    intro i h1 h2 hcalls
    by_cases hi : i < regFiles.length
    · rw [List.drop_eq_getElem_cons hi] at hcalls ⊢
      simp only [List.zip_cons_cons] at hcalls ⊢
      have hc : (callOne cfg τ (a, regFiles[i])).isOk = true :=
        hcalls _ (List.mem_cons_self _ _)
      obtain ⟨sf, hsf⟩ : ∃ sf, callOne cfg τ (a, regFiles[i]) = .ok sf := by
        cases hcv : callOne cfg τ (a, regFiles[i]) with
        | ok sf => exact ⟨sf, rfl⟩
        | error e => rw [hcv] at hc; simp [Except.isOk, Except.toBool] at hc
      simp only [seqLoop, List.getElem?_eq_getElem hi, htr, hsf]
      have hrec := ih (i + 1)
        (by simp only [List.length_cons] at h1; omega) (by omega)
        (fun p hp => hcalls p (List.mem_cons_of_mem _ hp))
      rw [hrec]
      simp [hsf, Except.toOption]
    · have hei : regFiles.length ≤ i := by omega
      simp only [seqLoop, List.getElem?_eq_none hei]
      rw [List.drop_eq_nil_of_le hei]
      simp [List.zip_nil_right]

/-- C9: with a sample spacing present, a per-image regressor pairing at
least as long as the input list (or absent entirely), and a sequential
run that raises nothing, a parallel run over the same inputs writes
exactly the same files, with the same contents, and raises nothing. -/
theorem claim_C9 (env : Env) (input_files : List String)
    (mask_img output_dir : String) (labels : Option (List String))
    (regressor_files : Option (List (Option String)))
    (regressor_names : List String) (realign_derivs as_voxels : Bool)
    (discard_scans : Option ℕ) (kwargs : MaskerKwargs) (τ : ℚ) (n_jobs : ℕ)
    (htr : kwargs.t_r = some τ)
    (hlen : ∀ fs, regressor_files = some fs → input_files.length ≤ fs.length)
    (hnj : 2 ≤ n_jobs)
    (hseq : (make_timeseries env input_files mask_img output_dir labels
      regressor_files regressor_names realign_derivs as_voxels discard_scans 1
      kwargs).raised = none) :
    (make_timeseries env input_files mask_img output_dir labels
        regressor_files regressor_names realign_derivs as_voxels discard_scans
        n_jobs kwargs).files
      = (make_timeseries env input_files mask_img output_dir labels
          regressor_files regressor_names realign_derivs as_voxels
          discard_scans 1 kwargs).files ∧
      (make_timeseries env input_files mask_img output_dir labels
        regressor_files regressor_names realign_derivs as_voxels discard_scans
        n_jobs kwargs).raised = none := by
  cases hm : set_masker (env.loadMask mask_img) with
  | error e => simp only [make_timeseries, hm] at hseq; simp at hseq
  | ok masker =>
    simp only [make_timeseries, hm, if_pos rfl,
      if_neg (by omega : ¬ n_jobs = 1), htr] at hseq ⊢
    set regFiles := (match regressor_files with
      | none => input_files.map (fun _ => none)
      | some fs => fs) with hrf
    have hlen2 : input_files.length ≤ regFiles.length := by
      cases regressor_files with
      | none => simp [hrf]
      | some fs => simpa [hrf] using hlen fs rfl
    have hmap := seqLoop_map_ok
      ⟨env, masker, output_dir, regressor_names, realign_derivs, as_voxels,
        labels, discard_scans⟩ regFiles kwargs τ htr input_files 0
      (by omega) hseq
    rw [List.drop_zero] at hmap
    constructor
    · rw [hmap, filterMap_toOption_map_ok]; simp
    · rw [hmap, firstError_map_ok]

/-- C10: when the supplied regressor-file list is shorter than the
input list (and every paired extraction itself succeeds), sequential
execution writes the paired prefix and then raises the list index
error, while parallel execution silently writes exactly the same
prefix (one file per paired image, len(regressor_files) of them) and
raises nothing. -/
theorem claim_C10 (env : Env) (input_files : List String)
    (mask_img output_dir : String) (labels : Option (List String))
    (fs : List (Option String)) (regressor_names : List String)
    (realign_derivs as_voxels : Bool) (discard_scans : Option ℕ)
    (kwargs : MaskerKwargs) (τ : ℚ) (n_jobs : ℕ) (masker : Masker)
    (hm : set_masker (env.loadMask mask_img) = .ok masker)
    (htr : kwargs.t_r = some τ)
    (hshort : fs.length < input_files.length)
    (hnj : 2 ≤ n_jobs)
    (hcalls : (input_files.zip fs).all (fun p =>
      (callOne ⟨env, masker, output_dir, regressor_names, realign_derivs,
        as_voxels, labels, discard_scans⟩ τ p).isOk) = true) :
    (make_timeseries env input_files mask_img output_dir labels (some fs)
        regressor_names realign_derivs as_voxels discard_scans 1 kwargs).files
      = (make_timeseries env input_files mask_img output_dir labels (some fs)
          regressor_names realign_derivs as_voxels discard_scans n_jobs
          kwargs).files ∧
      (make_timeseries env input_files mask_img output_dir labels (some fs)
        regressor_names realign_derivs as_voxels discard_scans n_jobs
        kwargs).files.length = fs.length ∧
      (make_timeseries env input_files mask_img output_dir labels (some fs)
        regressor_names realign_derivs as_voxels discard_scans 1 kwargs).raised
        = some "IndexError: list index out of range" ∧
      (make_timeseries env input_files mask_img output_dir labels (some fs)
        regressor_names realign_derivs as_voxels discard_scans n_jobs
        kwargs).raised = none := by
  have hall := List.all_eq_true.mp hcalls
  simp only [make_timeseries, hm, if_pos rfl,
    if_neg (by omega : ¬ n_jobs = 1), htr]
  have hseq := seqLoop_index_error
    ⟨env, masker, output_dir, regressor_names, realign_derivs, as_voxels,
      labels, discard_scans⟩ fs kwargs τ htr input_files 0
    (by omega) (Nat.zero_le _)
    (by rw [List.drop_zero]; intro p hp; exact hall p hp)
  rw [List.drop_zero] at hseq
  have hallmap : ∀ r ∈ (input_files.zip fs).map
      (callOne ⟨env, masker, output_dir, regressor_names, realign_derivs,
        as_voxels, labels, discard_scans⟩ τ), r.isOk = true := by
    intro r hr
    obtain ⟨p, hp, rfl⟩ := List.mem_map.mp hr
    exact hall p hp
  refine ⟨?_, ?_, ?_, ?_⟩
  · rw [hseq]; simp
  · rw [length_filterMap_toOption _ hallmap, List.length_map,
      List.length_zip]
    omega
  · rw [hseq]; simp
  · exact firstError_eq_none _ hallmap

/-- C9 witness at a concrete two-image batch with no confound files. -/
theorem claim_C9_witness :
    (make_timeseries envC2 ["a.nii", "b.nii"] "m.nii" "out" none none [] false
        false none 2 ⟨some 2⟩).files
      = (make_timeseries envC2 ["a.nii", "b.nii"] "m.nii" "out" none none []
          false false none 1 ⟨some 2⟩).files ∧
      (make_timeseries envC2 ["a.nii", "b.nii"] "m.nii" "out" none none []
        false false none 2 ⟨some 2⟩).raised = none :=
  claim_C9 envC2 ["a.nii", "b.nii"] "m.nii" "out" none none [] false false
    none ⟨some 2⟩ 2 2 rfl (fun fs h => nomatch h) (by decide) rfl

/-- C10 witness at a concrete batch of two images with a single
confound file entry. -/
theorem claim_C10_witness :
    (make_timeseries envC2 ["a.nii", "b.nii"] "m.nii" "out" none
        (some [none]) [] false false none 1 ⟨some 2⟩).files
      = (make_timeseries envC2 ["a.nii", "b.nii"] "m.nii" "out" none
          (some [none]) [] false false none 2 ⟨some 2⟩).files ∧
      (make_timeseries envC2 ["a.nii", "b.nii"] "m.nii" "out" none
        (some [none]) [] false false none 2 ⟨some 2⟩).files.length
        = [(none : Option String)].length ∧
      (make_timeseries envC2 ["a.nii", "b.nii"] "m.nii" "out" none
        (some [none]) [] false false none 1 ⟨some 2⟩).raised
        = some "IndexError: list index out of range" ∧
      (make_timeseries envC2 ["a.nii", "b.nii"] "m.nii" "out" none
        (some [none]) [] false false none 2 ⟨some 2⟩).raised = none :=
  claim_C10 envC2 ["a.nii", "b.nii"] "m.nii" "out" none [none] [] false false
    none ⟨some 2⟩ 2 2 (.niftiMasker ⟨[0, 1]⟩) rfl rfl (by decide) (by decide)
    rfl

end NiiMasker
